import Mathlib

/-!
Shallow embedding of the bookGo record repository (package `data`):
the `Book` record, the repository operations `Get`, `Update`, `Delete`,
`GetAll` of `BookModel`, and the `Pages` text codec.  The relational
store is modelled as a list of rows (`List Book`); each SQL statement
of the source is interpreted as a pure function on that state, and the
transport layer's possible failures are threaded through an explicit
`ScanResult` so that the repository's error mapping can be stated.
-/

/-- The `Book` record of `internal/data` (field `CreatedAt` is an
opaque timestamp, modelled as an integer; `Version` is the opaque
uuid concurrency token, modelled as a string). -/
structure Book where
  ID : Int
  CreatedAt : Int
  Title : String
  Content : String
  Year : Int
  Pages : Int
  Genres : List String
  Version : String
deriving DecidableEq, Repr

/-- The repository error taxonomy: `ErrRecordNotFound`, `ErrEditConflict`
from `models.go`, and any other store/transport error propagated as-is
(the spec's `StoreError`), carrying its opaque cause. -/
inductive ModelError where
  | recordNotFound
  | editConflict
  | storeError (cause : String)
deriving DecidableEq, Repr

/-- Outcome of a `QueryRow(...).Scan(...)` round trip: a scanned row,
the no-rows condition (`sql.ErrNoRows` / `pgx.ErrNoRows`), or any other
transport/database failure. -/
inductive ScanResult (α : Type) where
  | row (a : α)
  | noRows
  | fail (cause : String)
deriving DecidableEq, Repr

/-- Store semantics of the `Get` query
`SELECT ... FROM books WHERE id = $1`: the first row whose id matches,
or no rows. -/
def getScan (rows : List Book) (id : Int) : ScanResult Book :=
  match rows.find? (fun r => r.ID == id) with
  | some b => .row b
  | none => .noRows

/-- Repository `BookModel.Get`: a non-positive id short-circuits to
`ErrRecordNotFound` before any store operation (the scan outcome is a
parameter, so the short-circuit is literally independent of it);
otherwise the scan outcome is mapped: row found, no rows to
`ErrRecordNotFound`, anything else propagated. -/
def bookGet (id : Int) (scan : ScanResult Book) : Except ModelError Book :=
  if id < 1 then .error .recordNotFound
  else
    match scan with
    | .row b => .ok b
    | .noRows => .error .recordNotFound
    | .fail e => .error (.storeError e)

/-- Store semantics of the conditional update
`UPDATE books SET title = $1, ..., version = uuid_generate_v4()
WHERE id = $6 AND version = $7 RETURNING version`:
if some row matches both id and version, its mutable fields are
replaced by the argument record's fields and its version is rotated to
the freshly generated token `nv`, which is returned; with zero rows
matched the state is unchanged and the scan reports no rows. -/
def condUpdate (rows : List Book) (b : Book) (nv : String) :
    List Book × ScanResult String :=
  if rows.any (fun r => r.ID == b.ID && r.Version == b.Version) then
    (rows.map (fun r =>
        if r.ID == b.ID && r.Version == b.Version then
          { ID := r.ID, CreatedAt := r.CreatedAt, Title := b.Title,
            Content := b.Content, Year := b.Year, Pages := b.Pages,
            Genres := b.Genres, Version := nv }
        else r),
     .row nv)
  else (rows, .noRows)

/-- Repository `BookModel.Update`: the returned new version is copied
back into the record on success; the no-rows outcome of the conditional
update becomes `ErrEditConflict`; any other failure is propagated. -/
def bookUpdate (b : Book) (scan : ScanResult String) :
    Except ModelError Book :=
  match scan with
  | .row v => .ok { b with Version := v }
  | .noRows => .error .editConflict
  | .fail e => .error (.storeError e)

/-- Store semantics of `DELETE FROM books WHERE id = $1`: the affected
row count together with the remaining rows. -/
def deleteExec (rows : List Book) (id : Int) : Nat × List Book :=
  (rows.countP (fun r => r.ID == id), rows.filter (fun r => !(r.ID == id)))

/-- Repository `BookModel.Delete`: a non-positive id short-circuits to
`ErrRecordNotFound`; otherwise the execution outcome (affected count or
transport failure) is mapped: zero rows affected to `ErrRecordNotFound`,
success otherwise, other failures propagated. -/
def bookDelete (id : Int) (exec : Except String Nat) :
    Except ModelError Unit :=
  if id < 1 then .error .recordNotFound
  else
    match exec with
    | .error e => .error (.storeError e)
    | .ok n => if n == 0 then .error .recordNotFound else .ok ()

/-- C1: if the conditional update `WHERE id = :id AND version = :version`
matches zero rows — no row carries both the supplied id and the supplied
version, whether because the id is gone or the version is stale —
`Update` fails with `ErrEditConflict` and the store state is unchanged
(no silent overwrite); any transport/database failure is returned as a
store error carrying its cause. -/
theorem update_conflict_on_zero_rows (rows : List Book) (b : Book)
    (nv : String)
    (h : ∀ r ∈ rows, ¬(r.ID = b.ID ∧ r.Version = b.Version)) :
    bookUpdate b (condUpdate rows b nv).2 = .error .editConflict ∧
    (condUpdate rows b nv).1 = rows ∧
    ∀ e : String, bookUpdate b (.fail e) = .error (.storeError e) := by
  have hany : rows.any (fun r => r.ID == b.ID && r.Version == b.Version) = false := by
    rw [List.any_eq_false]
    intro r hr
    simp only [Bool.and_eq_true, beq_iff_eq]
    exact h r hr
  refine ⟨?_, ?_, fun e => rfl⟩
  · simp [condUpdate, hany, bookUpdate]
  · simp [condUpdate, hany]

/-- Witness for C1 at a concrete mismatched record: store holds one row
with version v1, the caller supplies stale version v0. -/
theorem update_conflict_on_zero_rows_witness :
    bookUpdate ⟨1, 0, "t", "c", 2000, 10, ["g"], "v0"⟩
        (condUpdate [⟨1, 0, "t", "c", 2000, 10, ["g"], "v1"⟩]
          ⟨1, 0, "t", "c", 2000, 10, ["g"], "v0"⟩ "v2").2
      = .error .editConflict := by
  have h := update_conflict_on_zero_rows
    [⟨1, 0, "t", "c", 2000, 10, ["g"], "v1"⟩]
    ⟨1, 0, "t", "c", 2000, 10, ["g"], "v0"⟩ "v2" (by decide)
  exact h.1

/-- C5: `Get` with a non-positive id fails with `ErrRecordNotFound`
no matter what the store would answer (no store operation can influence
the outcome); with a positive id, it returns the stored record when one
carries the id, fails with `ErrRecordNotFound` exactly when no row
matches, and any other store failure is propagated as a store error. -/
theorem get_contract (id : Int) (rows : List Book) :
    (id < 1 → ∀ scan : ScanResult Book,
      bookGet id scan = .error .recordNotFound) ∧
    (1 ≤ id →
      (bookGet id (getScan rows id) = .error .recordNotFound ↔
        ∀ r ∈ rows, r.ID ≠ id) ∧
      (∀ b, getScan rows id = .row b → bookGet id (getScan rows id) = .ok b) ∧
      (∀ e : String, bookGet id (.fail e) = .error (.storeError e))) := by
  constructor
  · intro hlt scan
    simp [bookGet, hlt]
  · intro hge
    have hnot : ¬ id < 1 := by omega
    refine ⟨?_, ?_, ?_⟩
    · constructor
      · intro hres r hr hid
        have hsome : (rows.find? (fun r => r.ID == id)).isSome := by
          rw [List.find?_isSome]
          exact ⟨r, hr, by simp [hid]⟩
        rcases Option.isSome_iff_exists.mp hsome with ⟨b, hb⟩
        rw [getScan, hb] at hres
        simp [bookGet, hnot] at hres
      · intro hnone
        have hfind : rows.find? (fun r => r.ID == id) = none := by
          rw [List.find?_eq_none]
          intro r hr
          simp only [beq_iff_eq]
          exact hnone r hr
        simp [bookGet, hnot, getScan, hfind]
    · intro b hb
      simp [bookGet, hnot, hb]
    · intro e
      simp [bookGet, hnot]

/-- Witness for C5: with a healthy store holding one row with id 7, a
negative id short-circuits, id 7 is found, id 9 reports not-found, and a
transport failure surfaces as a store error. -/
theorem get_contract_witness :
    bookGet (-3) (.fail "down") = .error .recordNotFound ∧
    bookGet 7 (getScan [⟨7, 0, "t", "c", 2000, 10, ["g"], "v1"⟩] 7)
      = .ok ⟨7, 0, "t", "c", 2000, 10, ["g"], "v1"⟩ ∧
    bookGet 9 (getScan [⟨7, 0, "t", "c", 2000, 10, ["g"], "v1"⟩] 9)
      = .error .recordNotFound ∧
    bookGet 7 (.fail "down") = .error (.storeError "down") := by
  have hneg := (get_contract (-3) []).1 (by decide) (.fail "down")
  have hok := ((get_contract 7 [⟨7, 0, "t", "c", 2000, 10, ["g"], "v1"⟩]).2
      (by decide)).2.1 ⟨7, 0, "t", "c", 2000, 10, ["g"], "v1"⟩ (by decide)
  have hmiss := ((get_contract 9 [⟨7, 0, "t", "c", 2000, 10, ["g"], "v1"⟩]).2
      (by decide)).1.mpr (by decide)
  have hfail := ((get_contract 7 [⟨7, 0, "t", "c", 2000, 10, ["g"], "v1"⟩]).2
      (by decide)).2.2 "down"
  exact ⟨hneg, hok, hmiss, hfail⟩

/-- C6: `Delete` with a non-positive id fails with `ErrRecordNotFound`
regardless of the store; with a positive id it issues the unconditional
delete by id and fails with `ErrRecordNotFound` exactly when the
affected-row count is zero, succeeding otherwise (the rows carrying the
id removed from the state). -/
theorem delete_contract (id : Int) (rows : List Book) :
    (id < 1 → ∀ exec : Except String Nat,
      bookDelete id exec = .error .recordNotFound) ∧
    (1 ≤ id →
      (bookDelete id (.ok (deleteExec rows id).1) = .error .recordNotFound ↔
        ∀ r ∈ rows, r.ID ≠ id) ∧
      ((∃ r ∈ rows, r.ID = id) →
        bookDelete id (.ok (deleteExec rows id).1) = .ok () ∧
        ∀ r ∈ (deleteExec rows id).2, r.ID ≠ id) ∧
      (∀ e : String, bookDelete id (.error e) = .error (.storeError e))) := by
  constructor
  · intro hlt exec
    simp [bookDelete, hlt]
  · intro hge
    have hnot : ¬ id < 1 := by omega
    have hcount : (deleteExec rows id).1 = 0 ↔ ∀ r ∈ rows, r.ID ≠ id := by
      simp only [deleteExec, List.countP_eq_zero, beq_iff_eq, ne_eq]
    refine ⟨?_, ?_, ?_⟩
    · constructor
      · intro hres
        rw [← hcount]
        by_contra hne
        simp [bookDelete, hnot, hne] at hres
      · intro hnone
        have h0 : (deleteExec rows id).1 = 0 := hcount.mpr hnone
        simp [bookDelete, hnot, h0]
    · rintro ⟨r, hr, hid⟩
      have hpos : (deleteExec rows id).1 ≠ 0 := by
        rw [Ne, hcount]
        push_neg
        exact ⟨r, hr, hid⟩
      constructor
      · simp [bookDelete, hnot, hpos]
      · intro s hs
        simp only [deleteExec, List.mem_filter, Bool.not_eq_eq_eq_not,
          Bool.not_true, beq_eq_false_iff_ne, ne_eq] at hs
        exact hs.2
    · intro e
      simp [bookDelete, hnot]

/-- Witness for C6: store holds one row with id 4; deleting id -1
short-circuits, deleting id 4 succeeds and empties the store, deleting
id 5 reports not-found, a transport failure surfaces as a store error. -/
theorem delete_contract_witness :
    bookDelete (-1) (.ok 0) = .error .recordNotFound ∧
    bookDelete 4 (.ok (deleteExec [⟨4, 0, "t", "c", 2000, 10, ["g"], "v1"⟩] 4).1)
      = .ok () ∧
    bookDelete 5 (.ok (deleteExec [⟨4, 0, "t", "c", 2000, 10, ["g"], "v1"⟩] 5).1)
      = .error .recordNotFound ∧
    bookDelete 4 (.error "down") = .error (.storeError "down") := by
  have hneg := (delete_contract (-1) []).1 (by decide) (.ok 0)
  have hok := (((delete_contract 4 [⟨4, 0, "t", "c", 2000, 10, ["g"], "v1"⟩]).2
      (by decide)).2.1 ⟨⟨4, 0, "t", "c", 2000, 10, ["g"], "v1"⟩, by decide, by decide⟩).1
  have hmiss := ((delete_contract 5 [⟨4, 0, "t", "c", 2000, 10, ["g"], "v1"⟩]).2
      (by decide)).1.mpr (by decide)
  have hfail := ((delete_contract 4 [⟨4, 0, "t", "c", 2000, 10, ["g"], "v1"⟩]).2
      (by decide)).2.2 "down"
  exact ⟨hneg, hok, hmiss, hfail⟩

/-- C8: when the conditional update matches (some stored row carries the
supplied id and version) and the store rotates the version to a fresh
token `nv` distinct from the supplied one, `Update` succeeds, the new
version is copied back into the passed record, differs from the input
version, and every other field of the passed record is unchanged. -/
theorem update_success_frame (rows : List Book) (b : Book) (nv : String)
    (hmatch : ∃ r ∈ rows, r.ID = b.ID ∧ r.Version = b.Version)
    (hfresh : nv ≠ b.Version) :
    ∃ res : Book,
      bookUpdate b (condUpdate rows b nv).2 = .ok res ∧
      res.Version = nv ∧
      res.Version ≠ b.Version ∧
      res.ID = b.ID ∧ res.CreatedAt = b.CreatedAt ∧
      res.Title = b.Title ∧ res.Content = b.Content ∧
      res.Year = b.Year ∧ res.Pages = b.Pages ∧ res.Genres = b.Genres := by
  have hany : rows.any (fun r => r.ID == b.ID && r.Version == b.Version) = true := by
    rw [List.any_eq_true]
    rcases hmatch with ⟨r, hr, h1, h2⟩
    exact ⟨r, hr, by simp [h1, h2]⟩
  refine ⟨{ b with Version := nv }, ?_, rfl, hfresh, rfl, rfl, rfl, rfl, rfl, rfl, rfl⟩
  simp [condUpdate, hany, bookUpdate]

/-- Witness for C8 at a concrete matching record and fresh token. -/
theorem update_success_frame_witness :
    (∃ r ∈ [Book.mk 1 0 "t" "c" 2000 10 ["g"] "v1"],
        r.ID = (Book.mk 1 0 "t2" "c2" 2001 11 ["h"] "v1").ID ∧
        r.Version = (Book.mk 1 0 "t2" "c2" 2001 11 ["h"] "v1").Version) ∧
    ∃ res : Book,
      bookUpdate (Book.mk 1 0 "t2" "c2" 2001 11 ["h"] "v1")
        (condUpdate [Book.mk 1 0 "t" "c" 2000 10 ["g"] "v1"]
          (Book.mk 1 0 "t2" "c2" 2001 11 ["h"] "v1") "v2").2 = .ok res ∧
      res.Version = "v2" ∧
      res.Version ≠ "v1" ∧
      res.ID = 1 ∧ res.CreatedAt = 0 ∧
      res.Title = "t2" ∧ res.Content = "c2" ∧
      res.Year = 2001 ∧ res.Pages = 11 ∧ res.Genres = ["h"] :=
  ⟨by decide,
   update_success_frame [Book.mk 1 0 "t" "c" 2000 10 ["g"] "v1"]
     (Book.mk 1 0 "t2" "c2" 2001 11 ["h"] "v1") "v2" (by decide) (by decide)⟩

/-- The dedicated format error `ErrInvalidPageFormat` of the `Pages`
codec. -/
inductive PagesError where
  | invalidFormat
deriving DecidableEq, Repr

/-- The unit word of the `Pages` textual form, the characters of
the token pages. -/
def unitToken : List Char := ['p', 'a', 'g', 'e', 's']

/-- A non-empty run of decimal digit characters. -/
def digitsOnly (cs : List Char) : Bool :=
  !cs.isEmpty && cs.all Char.isDigit

/-- Value of a run of decimal digit characters, most significant
first. -/
def digitsVal (cs : List Char) : Nat :=
  cs.foldl (fun a c => 10 * a + (c.toNat - 48)) 0

/-- Model of the digits phase of Go strconv.ParseInt: a non-empty
all-digit string yields its decimal value, anything else fails. -/
def parseNatDigits (cs : List Char) : Option Nat :=
  if digitsOnly cs = true then some (digitsVal cs) else none

/-- Largest int32 value, the upper bound ParseInt enforces for
bitSize 32. -/
def int32Max : Int := 2147483647

/-- Smallest int32 value, the lower bound ParseInt enforces for
bitSize 32. -/
def int32Min : Int := -2147483648

/-- Model of Go strconv.ParseInt(s, 10, 32): an optional single sign,
then at least one decimal digit, and the resulting value must lie in
the int32 range. -/
def goParseInt32 (cs : List Char) : Option Int :=
  match cs with
  | [] => none
  | c :: rest =>
    if c = '-' then
      (parseNatDigits rest).bind fun v =>
        if int32Min ≤ -(v : Int) then some (-(v : Int)) else none
    else if c = '+' then
      (parseNatDigits rest).bind fun v =>
        if (v : Int) ≤ int32Max then some (v : Int) else none
    else
      (parseNatDigits (c :: rest)).bind fun v =>
        if (v : Int) ≤ int32Max then some (v : Int) else none

/-- Go strings.Split(s, " "): the maximal runs of non-space characters
between single-space separators; n spaces give n+1 parts. -/
def splitOnSpace : List Char → List (List Char)
  | [] => [[]]
  | c :: rest =>
    if c = ' ' then [] :: splitOnSpace rest
    else
      match splitOnSpace rest with
      | [] => [[c]]
      | p :: ps => (c :: p) :: ps

/-- Model of Pages.UnmarshalJSON after strconv.Unquote has succeeded
(an Unquote failure also returns ErrInvalidPageFormat in the source):
the unquoted content is split on spaces, there must be exactly two
parts, the second must be the unit word, and the first must parse as a
base-10 int32. -/
def pagesUnmarshalChars (cs : List Char) : Except PagesError Int :=
  match splitOnSpace cs with
  | [a, b] =>
    if b = unitToken then
      match goParseInt32 a with
      | some k => .ok k
      | none => .error .invalidFormat
    else .error .invalidFormat
  | _ => .error .invalidFormat

/-- String-level wrapper of the `Pages` decoder. -/
def pagesUnmarshal (s : String) : Except PagesError Int :=
  pagesUnmarshalChars s.data

/-- Decimal rendering of a natural number, most significant digit
first, as Go fmt with verb d produces it. -/
def natDecimal (n : Nat) : List Char :=
  if n = 0 then ['0'] else ((Nat.digits 10 n).map Nat.digitChar).reverse

/-- Decimal rendering of an integer, with a leading minus sign when
negative, as Go fmt with verb d produces it. -/
def intDecimal (i : Int) : List Char :=
  if i < 0 then '-' :: natDecimal i.natAbs else natDecimal i.toNat

/-- Model of Pages.MarshalJSON before quoting: fmt.Sprintf of the page
count followed by the unit word. -/
def pagesMarshalContent (p : Int) : String :=
  String.mk (intDecimal p) ++ " pages"

/-- Model of Pages.MarshalJSON: the content wrapped in double quotes by
strconv.Quote (the content being digits, an optional minus sign, a
space and letters, Quote adds the quotes and escapes nothing). -/
def pagesMarshal (p : Int) : String :=
  "\"" ++ pagesMarshalContent p ++ "\""

/-- Textual shape of an integer literal: an optional single sign
followed by at least one decimal digit. -/
def intShape (t : List Char) : Bool :=
  match t with
  | [] => false
  | c :: rest =>
    if c = '-' then digitsOnly rest
    else if c = '+' then digitsOnly rest
    else digitsOnly (c :: rest)

/-- Spec-side predicate, from the spec wording: the string matches the
exact textual form of an integer literal (optional sign, decimal
digits), a single space, and the unit word pages. -/
def specPagesForm (s : String) : Prop :=
  ∃ t : List Char, s.data = t ++ ' ' :: unitToken ∧ intShape t = true

theorem splitOnSpace_ne_nil (cs : List Char) : splitOnSpace cs ≠ [] := by
  induction cs with
  | nil => simp [splitOnSpace]
  | cons c rest ih =>
    simp only [splitOnSpace]
    split
    · simp
    · cases h : splitOnSpace rest with
      | nil => simp
      | cons p ps => simp

theorem splitOnSpace_singleton (cs b : List Char)
    (h : splitOnSpace cs = [b]) : cs = b := by
  induction cs generalizing b with
  | nil =>
    simp only [splitOnSpace, List.cons.injEq, and_true] at h
    exact h
  | cons c rest ih =>
    simp only [splitOnSpace] at h
    by_cases hc : c = ' '
    · rw [if_pos hc] at h
      simp only [List.cons.injEq] at h
      exact absurd h.2 (splitOnSpace_ne_nil rest)
    · rw [if_neg hc] at h
      cases hrest : splitOnSpace rest with
      | nil => exact absurd hrest (splitOnSpace_ne_nil rest)
      | cons p ps =>
        rw [hrest] at h
        simp only [List.cons.injEq] at h
        obtain ⟨hb, hps⟩ := h
        subst hps
        have := ih p hrest
        subst this
        exact hb.symm ▸ rfl

theorem splitOnSpace_pair (cs a b : List Char)
    (h : splitOnSpace cs = [a, b]) : cs = a ++ ' ' :: b := by
  induction cs generalizing a b with
  | nil => simp [splitOnSpace] at h
  | cons c rest ih =>
    simp only [splitOnSpace] at h
    by_cases hc : c = ' '
    · rw [if_pos hc] at h
      simp only [List.cons.injEq] at h
      obtain ⟨ha, hrest⟩ := h
      have := splitOnSpace_singleton rest b hrest
      subst this
      rw [← ha, hc]
      rfl
    · rw [if_neg hc] at h
      cases hrest : splitOnSpace rest with
      | nil => exact absurd hrest (splitOnSpace_ne_nil rest)
      | cons p ps =>
        rw [hrest] at h
        simp only [List.cons.injEq] at h
        obtain ⟨ha, hps⟩ := h
        subst hps
        have hr : rest = p ++ ' ' :: b := ih p b hrest
        rw [← ha, hr]
        rfl

theorem splitOnSpace_no_space (cs : List Char) (h : ' ' ∉ cs) :
    splitOnSpace cs = [cs] := by
  induction cs with
  | nil => rfl
  | cons c rest ih =>
    have hc : ¬ c = ' ' := fun hh => h (hh ▸ List.mem_cons_self c rest)
    have hrest : ' ' ∉ rest := fun hm => h (List.mem_cons_of_mem c hm)
    simp only [splitOnSpace, if_neg hc, ih hrest]

theorem splitOnSpace_append (a b : List Char) (ha : ' ' ∉ a)
    (hb : ' ' ∉ b) : splitOnSpace (a ++ ' ' :: b) = [a, b] := by
  induction a with
  | nil =>
    simp [splitOnSpace, splitOnSpace_no_space b hb]
  | cons c arest ih =>
    have hc : ¬ c = ' ' := fun hh => ha (hh ▸ List.mem_cons_self c arest)
    have harest : ' ' ∉ arest := fun hm => ha (List.mem_cons_of_mem c hm)
    rw [List.cons_append, splitOnSpace, if_neg hc, ih harest]

theorem digitChar_isDigit : ∀ d < 10, (Nat.digitChar d).isDigit = true := by
  decide

theorem digitChar_val : ∀ d < 10, (Nat.digitChar d).toNat - 48 = d := by
  decide

theorem natDecimal_ne_nil (n : Nat) : natDecimal n ≠ [] := by
  rw [natDecimal]
  split
  · simp
  · next h =>
    simp only [ne_eq, List.reverse_eq_nil_iff, List.map_eq_nil_iff]
    exact Nat.digits_ne_nil_iff_ne_zero.mpr h

theorem natDecimal_all_digits (n : Nat) :
    (natDecimal n).all Char.isDigit = true := by
  rw [natDecimal]
  split
  · decide
  · rw [List.all_eq_true]
    intro c hc
    rw [List.mem_reverse, List.mem_map] at hc
    obtain ⟨d, hd, hdc⟩ := hc
    have hlt : d < 10 := Nat.digits_lt_base (by norm_num) hd
    exact hdc ▸ digitChar_isDigit d hlt

theorem natDecimal_no_space (n : Nat) : ' ' ∉ natDecimal n := by
  intro hmem
  have h := (List.all_eq_true.mp (natDecimal_all_digits n)) ' ' hmem
  exact absurd h (by decide)

theorem digitsVal_reverse_map (ds : List Nat) (hd : ∀ d ∈ ds, d < 10) :
    ∀ a : Nat,
      List.foldl (fun x c => 10 * x + (c.toNat - 48)) a
          ((ds.map Nat.digitChar).reverse) =
        a * 10 ^ ds.length + Nat.ofDigits 10 ds := by
  induction ds with
  | nil => intro a; simp [Nat.ofDigits]
  | cons d ds ih =>
    intro a
    have hds : ∀ x ∈ ds, x < 10 := fun x hx => hd x (List.mem_cons_of_mem d hx)
    have hdd : (Nat.digitChar d).toNat - 48 = d :=
      digitChar_val d (hd d (List.mem_cons_self d ds))
    simp only [List.map_cons, List.reverse_cons, List.foldl_append,
      List.foldl_cons, List.foldl_nil, ih hds a, hdd, Nat.ofDigits_cons,
      List.length_cons]
    ring

theorem digitsVal_natDecimal (n : Nat) : digitsVal (natDecimal n) = n := by
  by_cases h : n = 0
  · subst h; rfl
  · rw [natDecimal, if_neg h, digitsVal]
    have hlt : ∀ d ∈ Nat.digits 10 n, d < 10 :=
      fun d hd => Nat.digits_lt_base (by norm_num) hd
    rw [digitsVal_reverse_map (Nat.digits 10 n) hlt 0]
    simp [Nat.ofDigits_digits]

theorem parseNatDigits_natDecimal (n : Nat) :
    parseNatDigits (natDecimal n) = some n := by
  have h1 : digitsOnly (natDecimal n) = true := by
    rw [digitsOnly, Bool.and_eq_true]
    refine ⟨?_, natDecimal_all_digits n⟩
    simp [List.isEmpty_iff, natDecimal_ne_nil n]
  rw [parseNatDigits, if_pos h1, digitsVal_natDecimal]

theorem goParseInt32_natDecimal (m : Nat) (h : (m : Int) ≤ int32Max) :
    goParseInt32 (natDecimal m) = some (m : Int) := by
  obtain ⟨c, rest, hcr⟩ : ∃ c rest, natDecimal m = c :: rest := by
    cases hh : natDecimal m with
    | nil => exact absurd hh (natDecimal_ne_nil m)
    | cons c rest => exact ⟨c, rest, rfl⟩
  have hcd : c.isDigit = true := by
    have := List.all_eq_true.mp (natDecimal_all_digits m) c
      (by rw [hcr]; exact List.mem_cons_self c rest)
    exact this
  have hcm : ¬ c = '-' := by
    intro hh; rw [hh] at hcd; exact absurd hcd (by decide)
  have hcp : ¬ c = '+' := by
    intro hh; rw [hh] at hcd; exact absurd hcd (by decide)
  rw [hcr, goParseInt32, if_neg hcm, if_neg hcp, ← hcr,
    parseNatDigits_natDecimal]
  simp [h]

theorem parseNatDigits_digitsOnly (cs : List Char) (v : Nat)
    (h : parseNatDigits cs = some v) : digitsOnly cs = true := by
  rw [parseNatDigits] at h
  by_cases hd : digitsOnly cs = true
  · exact hd
  · rw [if_neg hd] at h; exact absurd h (by simp)

theorem goParseInt32_shape (cs : List Char) (v : Int)
    (h : goParseInt32 cs = some v) : intShape cs = true := by
  match cs with
  | [] => simp [goParseInt32] at h
  | c :: rest =>
    rw [goParseInt32] at h
    simp only [intShape]
    by_cases hm : c = '-'
    · rw [if_pos hm] at h ⊢
      cases hp : parseNatDigits rest with
      | none => rw [hp] at h; simp at h
      | some w => exact parseNatDigits_digitsOnly rest w hp
    · rw [if_neg hm] at h ⊢
      by_cases hq : c = '+'
      · rw [if_pos hq] at h ⊢
        cases hp : parseNatDigits rest with
        | none => rw [hp] at h; simp at h
        | some w => exact parseNatDigits_digitsOnly rest w hp
      · rw [if_neg hq] at h ⊢
        cases hp : parseNatDigits (c :: rest) with
        | none => rw [hp] at h; simp at h
        | some w => exact parseNatDigits_digitsOnly (c :: rest) w hp

theorem specPagesForm_iff (s : String) :
    specPagesForm s ↔
      (6 ≤ s.data.length ∧
       s.data.drop (s.data.length - 6) = ' ' :: unitToken ∧
       intShape (s.data.take (s.data.length - 6)) = true) := by
  constructor
  · rintro ⟨t, hdata, hshape⟩
    have hlen : s.data.length = t.length + 6 := by
      rw [hdata]; simp [unitToken]
    refine ⟨by omega, ?_, ?_⟩
    · rw [hdata]
      have h6 : (t ++ ' ' :: unitToken).length - 6 = t.length := by
        simp [unitToken]
      rw [h6, List.drop_left]
    · have h6 : s.data.length - 6 = t.length := by omega
      rw [h6, hdata, List.take_left]
      exact hshape
  · rintro ⟨h6, hdrop, htake⟩
    refine ⟨s.data.take (s.data.length - 6), ?_, htake⟩
    conv_lhs => rw [← List.take_append_drop (s.data.length - 6) s.data]
    rw [hdrop]

instance specPagesFormDecidable (s : String) : Decidable (specPagesForm s) :=
  decidable_of_iff _ (specPagesForm_iff s).symm

/-- C3: decoding any string whose content does not match the exact
textual form of an integer followed by a single space and the unit word
pages — including missing or extra whitespace, a non-integer count or a
wrong unit suffix — fails with the dedicated `ErrInvalidPageFormat`. -/
theorem unmarshal_rejects_nonform (s : String) (h : ¬ specPagesForm s) :
    pagesUnmarshal s = .error .invalidFormat := by
  cases hres : pagesUnmarshal s with
  | error e => cases e; rfl
  | ok k =>
    exfalso
    apply h
    rw [pagesUnmarshal, pagesUnmarshalChars] at hres
    split at hres
    · next a b heq =>
      split at hres
      · next hb =>
        split at hres
        · next v heq2 =>
          refine ⟨a, ?_, ?_⟩
          · rw [splitOnSpace_pair s.data a b heq, hb]
          · exact goParseInt32_shape a v heq2
        · next heq2 => simp at hres
      · next hb => simp at hres
    · next heq => simp at hres

/-- Witness for C3: the string 10pages, which lacks the space, is
rejected with the dedicated format error. -/
theorem unmarshal_rejects_nonform_witness :
    ¬ specPagesForm "10pages" ∧
    pagesUnmarshal "10pages" = .error .invalidFormat :=
  ⟨by decide, unmarshal_rejects_nonform "10pages" (by decide)⟩

/-- C4: for every page count representable as a non-negative int32,
encoding produces exactly the quoted string of its decimal rendering,
one space and the unit word pages, and decoding that string content
yields the same count back. -/
theorem pages_roundtrip (n : Int) (h0 : 0 ≤ n) (h1 : n ≤ int32Max) :
    (pagesMarshal n).data
      = '"' :: (intDecimal n ++ ' ' :: unitToken ++ ['"']) ∧
    pagesUnmarshal (pagesMarshalContent n) = .ok n := by
  have hneg : ¬ n < 0 := by omega
  have hid : intDecimal n = natDecimal n.toNat := by
    rw [intDecimal, if_neg hneg]
  have hdata : (pagesMarshalContent n).data
      = intDecimal n ++ ' ' :: unitToken := by
    rw [pagesMarshalContent, String.data_append]
    rfl
  constructor
  · rw [pagesMarshal, String.data_append, String.data_append, hdata]
    simp
  · have hm : (n.toNat : Int) = n := Int.toNat_of_nonneg h0
    have hle : (n.toNat : Int) ≤ int32Max := by rw [hm]; exact h1
    have hsplit : splitOnSpace (natDecimal n.toNat ++ ' ' :: unitToken)
        = [natDecimal n.toNat, unitToken] :=
      splitOnSpace_append _ _ (natDecimal_no_space _) (by decide)
    rw [pagesUnmarshal, hdata, hid, pagesUnmarshalChars, hsplit]
    simp [goParseInt32_natDecimal n.toNat hle, hm]

/-- Witness for C4 at the concrete count 310. -/
theorem pages_roundtrip_witness :
    (0 : Int) ≤ 310 ∧ (310 : Int) ≤ int32Max ∧
    ((pagesMarshal 310).data
        = '"' :: (intDecimal 310 ++ ' ' :: unitToken ++ ['"']) ∧
      pagesUnmarshal (pagesMarshalContent 310) = .ok 310) :=
  ⟨by decide, by decide, pages_roundtrip 310 (by decide) (by decide)⟩

/-- Navigation metadata.  Modelled from the spec: the Metadata type is
referenced by GetAll but declared in a repository file not present
under src; the spec fixes its fields — current page, page size,
first/last page, total record count — with the zero value signalling
no results. -/
structure Metadata where
  CurrentPage : Int := 0
  PageSize : Int := 0
  FirstPage : Int := 0
  LastPage : Int := 0
  TotalRecords : Int := 0
deriving DecidableEq, Repr

/-- Modelled from the spec: calculateMetadata, the pagination
calculator (declared in a repository file not present under src):
zero value when totalRecords is zero, otherwise firstPage 1, lastPage
the ceiling of totalRecords over pageSize, currentPage the requested
page.  Go integer division truncates toward zero, hence Int.tdiv. -/
def calculateMetadata (totalRecords page pageSize : Int) : Metadata :=
  if totalRecords = 0 then {}
  else
    { CurrentPage := page, PageSize := pageSize, FirstPage := 1,
      LastPage := (totalRecords + pageSize - 1).tdiv pageSize,
      TotalRecords := totalRecords }

/-- Modelled from the spec: the Filters value (declared in a repository
file not present under src) — page number, page size, requested sort
string, and the allow-list of permitted sort strings. -/
structure Filters where
  Page : Int
  PageSize : Int
  SortStr : String
  SortSafelist : List String
deriving DecidableEq, Repr

/-- Modelled from the spec: limit() is the page size. -/
def Filters.limit (f : Filters) : Int := f.PageSize

/-- Modelled from the spec: offset() is (page - 1) * pageSize. -/
def Filters.offset (f : Filters) : Int := (f.Page - 1) * f.PageSize

/-- Modelled from the spec: sortColumn() validates the requested sort
string against the allow-list and yields the column identifier with any
leading minus trimmed; any other value is a programming error, modelled
as none. -/
def Filters.sortColumn (f : Filters) : Option String :=
  if f.SortStr ∈ f.SortSafelist then
    some (if f.SortStr.startsWith "-" then f.SortStr.drop 1 else f.SortStr)
  else none

/-- Modelled from the spec: sortDirection() is DESC for a leading
minus on the requested sort string, ASC otherwise. -/
def Filters.sortDirection (f : Filters) : String :=
  if f.SortStr.startsWith "-" then "DESC" else "ASC"

/-- Row predicate of the GetAll WHERE clause:
(to_tsvector(title) matches plainto_tsquery($1) OR $1 is empty) AND
(genres contains $2 OR $2 is the empty array).  The full-text lexeme
match itself is computed by the store and is abstracted as the
parameter ts. -/
def sqlMatch (ts : String → String → Bool) (title : String)
    (genres : List String) (b : Book) : Bool :=
  (ts b.Title title || title == "") &&
  (genres.all (fun g => b.Genres.contains g) || genres == [])

/-- Comparator of ORDER BY col dir, id ASC: the validated sort column
is abstracted as the key function and its direction as the flag desc;
ties on the key are broken by id ascending. -/
def sortLE {K : Type} [LinearOrder K] (key : Book → K) (desc : Bool)
    (a b : Book) : Bool :=
  if key a = key b then decide (a.ID ≤ b.ID)
  else cond desc (decide (key b < key a)) (decide (key a < key b))

/-- `BookModel.GetAll`: interprets the search query over the rows —
the WHERE filter, ORDER BY the abstracted sort key with id tie-break,
the OFFSET/LIMIT window, and the windowed count(*) OVER() that the scan
loop reads from every returned row (so it stays zero when no row is
returned) — post-processed by calculateMetadata.  The content argument
is accepted, as in the source, but appears in no part of the query. -/
def getAll {K : Type} [LinearOrder K] (key : Book → K) (desc : Bool)
    (ts : String → String → Bool) (rows : List Book)
    (title : String) (content : String) (genres : List String)
    (f : Filters) : List Book × Metadata :=
  let matched := rows.filter (sqlMatch ts title genres)
  let sorted := matched.mergeSort (sortLE key desc)
  let page := (sorted.drop f.offset.toNat).take f.limit.toNat
  let totalRecords : Int := if page.isEmpty then 0 else (matched.length : Int)
  (page, calculateMetadata totalRecords f.Page f.PageSize)

/-- Spec-side matching rule, from the spec wording: a record matches
when (titleQuery is empty OR the title full-text-matches it) AND
(genreFilter is empty OR the genre set is a superset of the filter). -/
def specMatch (ts : String → String → Bool) (title : String)
    (genres : List String) (b : Book) : Prop :=
  (title = "" ∨ ts b.Title title = true) ∧
  (genres = [] ∨ ∀ g ∈ genres, g ∈ b.Genres)

/-- Spec-side ordering, from the spec wording: by the validated sort
column in its direction, then by id ascending as tie-break. -/
def specOrd {K : Type} [LinearOrder K] (key : Book → K) (desc : Bool)
    (a b : Book) : Prop :=
  if key a = key b then a.ID ≤ b.ID
  else if desc then key b < key a else key a < key b

theorem specMatch_iff_sqlMatch (ts : String → String → Bool)
    (title : String) (genres : List String) (b : Book) :
    specMatch ts title genres b ↔ sqlMatch ts title genres b = true := by
  rw [specMatch, sqlMatch]
  simp only [Bool.and_eq_true, Bool.or_eq_true, beq_iff_eq,
    List.all_eq_true, List.contains_iff_exists_mem_beq]
  constructor
  · rintro ⟨h1, h2⟩
    refine ⟨h1.symm.imp (fun h => h) (fun h => h), ?_⟩
    refine h2.symm.imp ?_ (fun h => h)
    intro h g hg
    exact ⟨g, h g hg, by simp⟩
  · rintro ⟨h1, h2⟩
    refine ⟨h1.symm.imp (fun h => h) (fun h => h), ?_⟩
    refine h2.symm.imp (fun h => h) ?_
    intro h g hg
    rcases h g hg with ⟨x, hx, hbeq⟩
    exact hbeq ▸ hx

theorem sortLE_iff {K : Type} [LinearOrder K] (key : Book → K)
    (desc : Bool) (a b : Book) :
    sortLE key desc a b = true ↔ specOrd key desc a b := by
  rw [sortLE, specOrd]
  by_cases h : key a = key b
  · simp [h]
  · cases desc <;> simp [h]

theorem sortLE_total {K : Type} [LinearOrder K] (key : Book → K)
    (desc : Bool) :
    ∀ a b : Book, sortLE key desc a b || sortLE key desc b a := by
  intro a b
  by_cases h : key a = key b
  · rw [sortLE, sortLE, if_pos h, if_pos h.symm]
    simp only [Bool.or_eq_true, decide_eq_true_iff]
    omega
  · have h2 : ¬ key b = key a := fun hh => h hh.symm
    have hlt : key a < key b ∨ key b < key a := lt_or_gt_of_ne h
    rw [sortLE, sortLE, if_neg h, if_neg h2]
    cases desc <;>
      simp only [Bool.cond_false, Bool.cond_true, Bool.or_eq_true,
        decide_eq_true_iff] <;>
      tauto

theorem sortLE_trans {K : Type} [LinearOrder K] (key : Book → K)
    (desc : Bool) :
    ∀ a b c : Book, sortLE key desc a b → sortLE key desc b c →
      sortLE key desc a c := by
  intro a b c hab hbc
  rw [sortLE] at hab hbc ⊢
  by_cases h1 : key a = key b <;> by_cases h2 : key b = key c
  · rw [if_pos h1] at hab
    rw [if_pos h2] at hbc
    rw [if_pos (h1.trans h2)]
    simp only [decide_eq_true_iff] at hab hbc ⊢
    omega
  · rw [if_pos h1] at hab
    rw [if_neg h2] at hbc
    have h3 : ¬ key a = key c := fun hh => h2 (h1.symm.trans hh)
    rw [if_neg h3, h1]
    exact hbc
  · rw [if_neg h1] at hab
    rw [if_pos h2] at hbc
    have h3 : ¬ key a = key c := fun hh => h1 (hh.trans h2.symm)
    rw [if_neg h3, ← h2]
    exact hab
  · rw [if_neg h1] at hab
    rw [if_neg h2] at hbc
    cases desc
    · simp only [Bool.cond_false, decide_eq_true_iff] at hab hbc
      have h3 : ¬ key a = key c := ne_of_lt (lt_trans hab hbc)
      rw [if_neg h3]
      simp only [Bool.cond_false, decide_eq_true_iff]
      exact lt_trans hab hbc
    · simp only [Bool.cond_true, decide_eq_true_iff] at hab hbc
      have h3 : ¬ key a = key c := ne_of_gt (lt_trans hbc hab)
      rw [if_neg h3]
      simp only [Bool.cond_true, decide_eq_true_iff]
      exact lt_trans hbc hab

/-- C2 (amended): every record in the returned page satisfies the spec
matching rule; the page is ordered by the (abstracted) validated sort
column in its direction with id ascending as tie-break; and every
matching record is included whenever the requested window covers the
whole matching set (offset zero and limit at least the matching count).
As stated in the claim, inclusion is not equivalent to matching alone:
a matching record can be cut off by the page window. -/
theorem getAll_match_order {K : Type} [LinearOrder K]
    (key : Book → K) (desc : Bool) (ts : String → String → Bool)
    (rows : List Book) (title : String) (content : String)
    (genres : List String) (f : Filters) :
    (∀ b ∈ (getAll key desc ts rows title content genres f).1,
        specMatch ts title genres b) ∧
    ((getAll key desc ts rows title content genres f).1).Pairwise
        (specOrd key desc) ∧
    (f.offset.toNat = 0 →
      (rows.filter (sqlMatch ts title genres)).length ≤ f.limit.toNat →
      ∀ b ∈ rows, specMatch ts title genres b →
        b ∈ (getAll key desc ts rows title content genres f).1) := by
  have hpage : (getAll key desc ts rows title content genres f).1
      = (((rows.filter (sqlMatch ts title genres)).mergeSort
            (sortLE key desc)).drop f.offset.toNat).take f.limit.toNat := rfl
  refine ⟨?_, ?_, ?_⟩
  · intro b hb
    rw [hpage] at hb
    have hb2 : b ∈ (rows.filter (sqlMatch ts title genres)).mergeSort
        (sortLE key desc) :=
      List.mem_of_mem_drop (List.mem_of_mem_take hb)
    rw [List.mem_mergeSort] at hb2
    exact (specMatch_iff_sqlMatch ts title genres b).mpr
      (List.mem_filter.mp hb2).2
  · rw [hpage]
    have hsorted := List.sorted_mergeSort
      (sortLE_trans key desc) (sortLE_total key desc)
      (rows.filter (sqlMatch ts title genres))
    have hsub : ((((rows.filter (sqlMatch ts title genres)).mergeSort
          (sortLE key desc)).drop f.offset.toNat).take f.limit.toNat).Sublist
        ((rows.filter (sqlMatch ts title genres)).mergeSort
          (sortLE key desc)) :=
      (List.take_sublist _ _).trans (List.drop_sublist _ _)
    exact (List.Pairwise.sublist hsub hsorted).imp
      (fun hab => (sortLE_iff key desc _ _).mp hab)
  · intro ho hl b hb hm
    rw [hpage, ho, List.drop_zero]
    have hlen : ((rows.filter (sqlMatch ts title genres)).mergeSort
        (sortLE key desc)).length ≤ f.limit.toNat := by
      rw [List.length_mergeSort]
      exact hl
    rw [List.take_of_length_le hlen, List.mem_mergeSort]
    exact List.mem_filter.mpr
      ⟨hb, (specMatch_iff_sqlMatch ts title genres b).mp hm⟩

/-- Counterexample to C2 as stated: with two matching records and page
size one, the second record satisfies the claim's matching rule yet is
not included in the returned page. -/
theorem getAll_window_counterexample :
    specMatch (fun _ _ => false) "" [] (Book.mk 2 0 "b" "c" 2000 10 ["g"] "v") ∧
    Book.mk 2 0 "b" "c" 2000 10 ["g"] "v" ∉
      (getAll (fun b => b.ID) false (fun _ _ => false)
        [Book.mk 1 0 "a" "c" 2000 10 ["g"] "v",
         Book.mk 2 0 "b" "c" 2000 10 ["g"] "v"]
        "" "" [] ⟨1, 1, "id", ["id"]⟩).1 := by
  refine ⟨⟨Or.inl rfl, Or.inl rfl⟩, ?_⟩
  have hms : List.mergeSort
      [Book.mk 1 0 "a" "c" 2000 10 ["g"] "v",
       Book.mk 2 0 "b" "c" 2000 10 ["g"] "v"]
      (sortLE (fun b => b.ID) false)
      = [Book.mk 1 0 "a" "c" 2000 10 ["g"] "v",
         Book.mk 2 0 "b" "c" 2000 10 ["g"] "v"] :=
    List.mergeSort_of_sorted (by decide)
  have hpage : (getAll (fun b => b.ID) false (fun _ _ => false)
      [Book.mk 1 0 "a" "c" 2000 10 ["g"] "v",
       Book.mk 2 0 "b" "c" 2000 10 ["g"] "v"]
      "" "" [] ⟨1, 1, "id", ["id"]⟩).1
      = ((List.mergeSort
          [Book.mk 1 0 "a" "c" 2000 10 ["g"] "v",
           Book.mk 2 0 "b" "c" 2000 10 ["g"] "v"]
          (sortLE (fun b => b.ID) false)).drop 0).take 1 := rfl
  rw [hpage, hms]
  decide

/-- Witness for C2 (amended) at a window covering all matches: offset
zero, limit two, one matching record, which is returned. -/
theorem getAll_match_order_witness :
    Book.mk 1 0 "a" "c" 2000 10 ["g"] "v" ∈
      (getAll (fun b => b.ID) false (fun _ _ => false)
        [Book.mk 1 0 "a" "c" 2000 10 ["g"] "v"] "" "" []
        ⟨1, 2, "id", ["id"]⟩).1 := by
  have h := getAll_match_order (fun b => b.ID) false (fun _ _ => false)
    [Book.mk 1 0 "a" "c" 2000 10 ["g"] "v"] "" "" [] ⟨1, 2, "id", ["id"]⟩
  exact h.2.2 (by decide) (by decide) _ (by decide) ⟨Or.inl rfl, Or.inl rfl⟩

/-- C7 (amended): when no row matches, GetAll returns the empty list
(never an absent value) together with the zero-value Metadata; and
whenever the returned page is non-empty, totalRecords equals the full
matching-row count ignoring limit and offset.  When the requested
window misses every matching row the scan loop never reads the
windowed count and totalRecords stays zero, hence the non-empty
qualification on the second part. -/
theorem getAll_empty_and_total {K : Type} [LinearOrder K]
    (key : Book → K) (desc : Bool) (ts : String → String → Bool)
    (rows : List Book) (title : String) (content : String)
    (genres : List String) (f : Filters) :
    (rows.filter (sqlMatch ts title genres) = [] →
      (getAll key desc ts rows title content genres f).1 = [] ∧
      (getAll key desc ts rows title content genres f).2 = {}) ∧
    ((getAll key desc ts rows title content genres f).1 ≠ [] →
      (getAll key desc ts rows title content genres f).2.TotalRecords
        = ((rows.filter (sqlMatch ts title genres)).length : Int)) := by
  constructor
  · intro hm
    constructor
    · show (((rows.filter (sqlMatch ts title genres)).mergeSort
          (sortLE key desc)).drop f.offset.toNat).take f.limit.toNat = []
      rw [hm, List.mergeSort_nil, List.drop_nil, List.take_nil]
    · show calculateMetadata
          (if ((((rows.filter (sqlMatch ts title genres)).mergeSort
              (sortLE key desc)).drop f.offset.toNat).take
                f.limit.toNat).isEmpty
           then 0
           else ((rows.filter (sqlMatch ts title genres)).length : Int))
          f.Page f.PageSize = {}
      rw [hm, List.mergeSort_nil, List.drop_nil, List.take_nil]
      simp [calculateMetadata]
  · intro hne
    have hpage : (getAll key desc ts rows title content genres f).1
        = (((rows.filter (sqlMatch ts title genres)).mergeSort
              (sortLE key desc)).drop f.offset.toNat).take f.limit.toNat := rfl
    rw [hpage] at hne
    have hempty : ((((rows.filter (sqlMatch ts title genres)).mergeSort
        (sortLE key desc)).drop f.offset.toNat).take f.limit.toNat).isEmpty
        = false := List.isEmpty_eq_false.mpr hne
    have hM : rows.filter (sqlMatch ts title genres) ≠ [] := by
      intro h0
      apply hne
      rw [h0, List.mergeSort_nil, List.drop_nil, List.take_nil]
    have hlen : ((rows.filter (sqlMatch ts title genres)).length : Int) ≠ 0 := by
      have h1 : (rows.filter (sqlMatch ts title genres)).length ≠ 0 := by
        simpa [List.length_eq_zero] using hM
      exact_mod_cast h1
    show (calculateMetadata
        (if ((((rows.filter (sqlMatch ts title genres)).mergeSort
            (sortLE key desc)).drop f.offset.toNat).take
              f.limit.toNat).isEmpty
         then 0
         else ((rows.filter (sqlMatch ts title genres)).length : Int))
        f.Page f.PageSize).TotalRecords
        = ((rows.filter (sqlMatch ts title genres)).length : Int)
    simp only [hempty, Bool.false_eq_true, if_false]
    rw [calculateMetadata, if_neg hlen]

/-- Counterexample to C7 as stated: one matching record, but page 2 of
size 1 — a row matches, yet the returned metadata carries totalRecords
zero instead of the matching count one. -/
theorem getAll_total_counterexample :
    (getAll (fun b => b.ID) false (fun _ _ => false)
        [Book.mk 1 0 "a" "c" 2000 10 ["g"] "v"]
        "" "" [] ⟨2, 1, "id", ["id"]⟩).2.TotalRecords = 0 ∧
    ([Book.mk 1 0 "a" "c" 2000 10 ["g"] "v"].filter
        (sqlMatch (fun _ _ => false) "" [])).length = 1 := by
  constructor
  · have hms : List.mergeSort [Book.mk 1 0 "a" "c" 2000 10 ["g"] "v"]
        (sortLE (fun b => b.ID) false)
        = [Book.mk 1 0 "a" "c" 2000 10 ["g"] "v"] :=
      List.mergeSort_of_sorted (by decide)
    have hmeta : (getAll (fun b => b.ID) false (fun _ _ => false)
        [Book.mk 1 0 "a" "c" 2000 10 ["g"] "v"]
        "" "" [] ⟨2, 1, "id", ["id"]⟩).2.TotalRecords
        = (calculateMetadata
            (if (((List.mergeSort [Book.mk 1 0 "a" "c" 2000 10 ["g"] "v"]
                    (sortLE (fun b => b.ID) false)).drop 1).take 1).isEmpty
             then 0 else (1 : Int)) 2 1).TotalRecords := rfl
    rw [hmeta, hms]
    decide
  · decide

/-- Witness for C7 (amended): an empty store gives the empty page and
zero-value metadata; a store with one matching record and a window
covering it gives totalRecords one. -/
theorem getAll_empty_and_total_witness :
    ((getAll (fun b => b.ID) false (fun _ _ => false) [] "" "" []
        ⟨1, 5, "id", ["id"]⟩).1 = [] ∧
      (getAll (fun b => b.ID) false (fun _ _ => false) [] "" "" []
        ⟨1, 5, "id", ["id"]⟩).2 = {}) ∧
    (getAll (fun b => b.ID) false (fun _ _ => false)
        [Book.mk 1 0 "a" "c" 2000 10 ["g"] "v"] "" "" []
        ⟨1, 5, "id", ["id"]⟩).2.TotalRecords = 1 := by
  constructor
  · exact (getAll_empty_and_total (fun b => b.ID) false (fun _ _ => false)
      [] "" "" [] ⟨1, 5, "id", ["id"]⟩).1 (by decide)
  · have hms : List.mergeSort [Book.mk 1 0 "a" "c" 2000 10 ["g"] "v"]
        (sortLE (fun b => b.ID) false)
        = [Book.mk 1 0 "a" "c" 2000 10 ["g"] "v"] :=
      List.mergeSort_of_sorted (by decide)
    have hne : (getAll (fun b => b.ID) false (fun _ _ => false)
        [Book.mk 1 0 "a" "c" 2000 10 ["g"] "v"] "" "" []
        ⟨1, 5, "id", ["id"]⟩).1 ≠ [] := by
      have hpage : (getAll (fun b => b.ID) false (fun _ _ => false)
          [Book.mk 1 0 "a" "c" 2000 10 ["g"] "v"] "" "" []
          ⟨1, 5, "id", ["id"]⟩).1
          = ((List.mergeSort [Book.mk 1 0 "a" "c" 2000 10 ["g"] "v"]
              (sortLE (fun b => b.ID) false)).drop 0).take 5 := rfl
      rw [hpage, hms]
      decide
    have h := (getAll_empty_and_total (fun b => b.ID) false
      (fun _ _ => false) [Book.mk 1 0 "a" "c" 2000 10 ["g"] "v"] "" "" []
      ⟨1, 5, "id", ["id"]⟩).2 hne
    rw [h]
    decide

/-- C9: the pagination calculator is a pure function of its three
arguments: at zero totalRecords it returns the zero-value Metadata for
every page and page size; for positive totalRecords and pageSize it
returns firstPage 1, currentPage the requested page, pageSize and
totalRecords as supplied, and lastPage the ceiling of totalRecords over
pageSize, characterized as the unique page count whose pages cover all
records while one page fewer does not. -/
theorem calculateMetadata_spec (n p s : Int) :
    calculateMetadata 0 p s = {} ∧
    (0 < n → 0 < s →
      (calculateMetadata n p s).FirstPage = 1 ∧
      (calculateMetadata n p s).CurrentPage = p ∧
      (calculateMetadata n p s).PageSize = s ∧
      (calculateMetadata n p s).TotalRecords = n ∧
      n ≤ (calculateMetadata n p s).LastPage * s ∧
      ((calculateMetadata n p s).LastPage - 1) * s < n) := by
  constructor
  · rw [calculateMetadata, if_pos rfl]
  · intro hn hs
    have hne : n ≠ 0 := by omega
    have hL : (calculateMetadata n p s).LastPage = (n + s - 1).tdiv s := by
      rw [calculateMetadata, if_neg hne]
    have htd : (n + s - 1).tdiv s = (n + s - 1) / s :=
      Int.tdiv_eq_ediv (by omega) (by omega)
    have hdm := Int.ediv_add_emod (n + s - 1) s
    have hm0 : 0 ≤ (n + s - 1) % s := Int.emod_nonneg _ (by omega)
    have hms : (n + s - 1) % s < s := Int.emod_lt_of_pos _ hs
    refine ⟨?_, ?_, ?_, ?_, ?_, ?_⟩
    · rw [calculateMetadata, if_neg hne]
    · rw [calculateMetadata, if_neg hne]
    · rw [calculateMetadata, if_neg hne]
    · rw [calculateMetadata, if_neg hne]
    · rw [hL, htd]
      nlinarith [hdm, hm0, hms]
    · rw [hL, htd]
      nlinarith [hdm, hm0, hms]

/-- Witness for C9: the zero case at page -4 and page size 0 (no
positivity needed), and the positive case at totalRecords 7, page 3,
pageSize 2 (lastPage 4). -/
theorem calculateMetadata_spec_witness :
    calculateMetadata 0 (-4) 0 = {} ∧
    ((0 : Int) < 7 ∧ (0 : Int) < 2 ∧
      ((calculateMetadata 7 3 2).FirstPage = 1 ∧
        (calculateMetadata 7 3 2).CurrentPage = 3 ∧
        (calculateMetadata 7 3 2).PageSize = 2 ∧
        (calculateMetadata 7 3 2).TotalRecords = 7 ∧
        (7 : Int) ≤ (calculateMetadata 7 3 2).LastPage * 2 ∧
        ((calculateMetadata 7 3 2).LastPage - 1) * 2 < 7)) :=
  ⟨(calculateMetadata_spec 0 (-4) 0).1,
    by decide, by decide,
    (calculateMetadata_spec 7 3 2).2 (by decide) (by decide)⟩

/-- C10: the content argument of GetAll never influences the result —
it is bound in the signature but used in no part of the query, so two
calls differing only in the content argument return identical records
and identical metadata for every store state and every other
argument. -/
theorem getAll_content_independent {K : Type} [LinearOrder K]
    (key : Book → K) (desc : Bool) (ts : String → String → Bool)
    (rows : List Book) (title : String) (c1 c2 : String)
    (genres : List String) (f : Filters) :
    getAll key desc ts rows title c1 genres f
      = getAll key desc ts rows title c2 genres f := rfl
